import Mathlib

/-
Verification development for the steering-behaviors simulation in src/main.cpp.

The C++ program computes 2D steering forces for autonomous agents (seek, arrive,
separation, predictive avoidance, obstacle avoidance, wall avoidance, path
following), combines them by strict priority or weighted blending, and
integrates velocity and position once per tick.  Float arithmetic is modelled
over the real numbers; the two parallel obstacle vectors (centers, radii) are
modelled as one zipped list; the reference-identity self-exclusion in
`Separation` is modelled as index equality (the main loop always passes
`agents[i]` itself as `self`).
-/

namespace SteerSim

noncomputable section

/-- 2D vector, mirroring raylib's `Vector2` as used by the program. -/
structure Vec2 where
  x : ℝ
  y : ℝ

/-- `Length` from src/main.cpp: `sqrtf(v.x*v.x + v.y*v.y)`. -/
def Length (v : Vec2) : ℝ := Real.sqrt (v.x * v.x + v.y * v.y)

/-- `Normalize` from src/main.cpp: returns the zero vector when the length is zero. -/
def Normalize (v : Vec2) : Vec2 :=
  if Length v = 0 then ⟨0, 0⟩ else ⟨v.x / Length v, v.y / Length v⟩

/-- `Scale` from src/main.cpp. -/
def Scale (v : Vec2) (s : ℝ) : Vec2 := ⟨v.x * s, v.y * s⟩

/-- `Add` from src/main.cpp. -/
def Add (a b : Vec2) : Vec2 := ⟨a.x + b.x, a.y + b.y⟩

/-- `Sub` from src/main.cpp. -/
def Sub (a b : Vec2) : Vec2 := ⟨a.x - b.x, a.y - b.y⟩

/-- `Limit` from src/main.cpp: rescales `v` to length `m` when `Length v > m`. -/
def Limit (v : Vec2) (m : ℝ) : Vec2 :=
  if Length v > m then Scale v (m / Length v) else v

theorem Length_nonneg (v : Vec2) : 0 ≤ Length v := Real.sqrt_nonneg _

theorem Length_zero : Length ⟨0, 0⟩ = 0 := by
  simp [Length]

theorem Length_eq_zero_iff (v : Vec2) : Length v = 0 ↔ v.x = 0 ∧ v.y = 0 := by
  unfold Length
  rw [show v.x * v.x + v.y * v.y = v.x ^ 2 + v.y ^ 2 by ring]
  rw [Real.sqrt_eq_zero (by positivity)]
  constructor
  · intro h
    constructor
    · nlinarith [sq_nonneg v.x, sq_nonneg v.y]
    · nlinarith [sq_nonneg v.x, sq_nonneg v.y]
  · rintro ⟨hx, hy⟩
    rw [hx, hy]; ring

/-- Length of an x-axis vector. -/
theorem Length_mk_x (a : ℝ) : Length ⟨a, 0⟩ = |a| := by
  unfold Length
  simp [Real.sqrt_mul_self_eq_abs]

/-- Length of a y-axis vector. -/
theorem Length_mk_y (a : ℝ) : Length ⟨0, a⟩ = |a| := by
  unfold Length
  simp [Real.sqrt_mul_self_eq_abs]

theorem Length_scale (v : Vec2) (s : ℝ) : Length (Scale v s) = |s| * Length v := by
  unfold Length Scale
  rw [show v.x * s * (v.x * s) + v.y * s * (v.y * s) = s * s * (v.x * v.x + v.y * v.y) by ring]
  rw [Real.sqrt_mul (mul_self_nonneg s), Real.sqrt_mul_self_eq_abs]

theorem Normalize_eq_scale (v : Vec2) (h : Length v ≠ 0) :
    Normalize v = Scale v (Length v)⁻¹ := by
  unfold Normalize Scale
  rw [if_neg h]
  simp [div_eq_mul_inv]

theorem Length_normalize (v : Vec2) (h : Length v ≠ 0) : Length (Normalize v) = 1 := by
  rw [Normalize_eq_scale v h, Length_scale]
  have hpos : 0 < Length v := lt_of_le_of_ne (Length_nonneg v) (Ne.symm h)
  rw [abs_of_pos (inv_pos.mpr hpos)]
  field_simp

/-- The clamped vector has length at most `m` whenever `0 ≤ m`. -/
theorem Length_limit_le (v : Vec2) (m : ℝ) (hm : 0 ≤ m) : Length (Limit v m) ≤ m := by
  unfold Limit
  by_cases h : Length v > m
  · rw [if_pos h, Length_scale]
    have hpos : 0 < Length v := lt_of_le_of_lt hm h
    rw [abs_of_nonneg (div_nonneg hm (le_of_lt hpos))]
    rw [div_mul_cancel₀ _ (ne_of_gt hpos)]
  · rw [if_neg h]
    exact le_of_not_lt h

theorem Limit_of_le (v : Vec2) (m : ℝ) (h : Length v ≤ m) : Limit v m = v := by
  unfold Limit
  rw [if_neg (not_lt.mpr h)]

/-- The `Agent` struct from src/main.cpp (the display color is irrelevant to the
algorithm and is omitted). -/
structure Agent where
  pos : Vec2
  vel : Vec2
  acc : Vec2
  maxSpeed : ℝ
  maxForce : ℝ
  pathIndex : ℤ

instance : Inhabited Agent := ⟨⟨⟨0, 0⟩, ⟨0, 0⟩, ⟨0, 0⟩, 0, 0, 0⟩⟩

/-- `Arrive` from src/main.cpp. -/
def Arrive (pos target : Vec2) (maxSpeed slowingRadius : ℝ) : Vec2 :=
  let desired := Sub target pos
  let dist := Length desired
  if dist < 0.001 then ⟨0, 0⟩
  else
    let dir := Normalize desired
    let speed := maxSpeed * (dist / slowingRadius)
    let speed := if speed > maxSpeed then maxSpeed else speed
    Scale dir speed

/-- `PredictiveAvoidance` from src/main.cpp. -/
def PredictiveAvoidance (a b : Agent) (lookAheadTime maxAvoidForce : ℝ) : Vec2 :=
  let futureA := Add a.pos (Scale a.vel lookAheadTime)
  let futureB := Add b.pos (Scale b.vel lookAheadTime)
  let diff := Sub futureA futureB
  let dist := Length diff
  let combinedRadius : ℝ := 24
  if dist < combinedRadius ∧ dist > 0.001 then
    let away := Normalize (Sub futureA futureB)
    let strength := (combinedRadius - dist) / combinedRadius
    Scale away (maxAvoidForce * (0.4 + 0.6 * strength))
  else ⟨0, 0⟩

/-- Accumulation loop of `Separation` from src/main.cpp, carrying the running
`(steer, count)` pair; `j` is the index of the head of the remaining list and
`selfIdx` models the reference-identity self test (`&other == &self`). -/
def sepAccum (self : Agent) (radius : ℝ) (selfIdx : Nat) :
    Nat → List Agent → Vec2 × Nat → Vec2 × Nat
  | _, [], acc => acc
  | j, other :: rest, (steer, count) =>
      sepAccum self radius selfIdx (j + 1) rest
        (if j = selfIdx then (steer, count)
         else
           let diff := Sub self.pos other.pos
           let d := Length diff
           if 0 < d ∧ d < radius then
             (Add steer (Scale (Normalize diff) ((radius - d) / radius)), count + 1)
           else (steer, count))

/-- `Separation` from src/main.cpp; `self` is `agents[selfIdx]` as in the main loop. -/
def Separation (agents : List Agent) (selfIdx : Nat) (radius strength : ℝ) : Vec2 :=
  let self := agents.getD selfIdx default
  let sc := sepAccum self radius selfIdx 0 agents (⟨0, 0⟩, 0)
  let steer := if sc.2 > 0 then Scale sc.1 (1 / (sc.2 : ℝ)) else sc.1
  if Length steer < 0.0001 then ⟨0, 0⟩ else Scale (Normalize steer) strength

/-- Obstacle loop of `ObstacleAvoidance` from src/main.cpp: the current-position
test sits in the `else` branch of the ahead-point test. -/
def obsLoop (pos ahead : Vec2) (avoidStrength : ℝ) : List (Vec2 × ℝ) → Vec2 → Vec2
  | [], steer => steer
  | ob :: rest, steer =>
      let c := ob.1
      let r := ob.2 + 8
      let dist := Length (Sub ahead c)
      let steer' :=
        if dist < r then
          Add steer (Scale (Normalize (Sub ahead c)) ((r - dist) * avoidStrength))
        else
          let nowDist := Length (Sub pos c)
          if nowDist < r then
            Add steer (Scale (Normalize (Sub pos c)) ((r - nowDist) * avoidStrength * 0.8))
          else steer
      obsLoop pos ahead avoidStrength rest steer'

/-- `ObstacleAvoidance` from src/main.cpp. -/
def ObstacleAvoidance (agent : Agent) (obstacles : List (Vec2 × ℝ))
    (lookAhead avoidStrength : ℝ) : Vec2 :=
  let h0 := Normalize agent.vel
  let heading := if Length h0 < 0.01 then (⟨0, -1⟩ : Vec2) else h0
  let ahead := Add agent.pos (Scale heading lookAhead)
  let steer := obsLoop agent.pos ahead avoidStrength obstacles ⟨0, 0⟩
  if Length steer < 0.001 then ⟨0, 0⟩ else Limit steer avoidStrength

/-- `WallAvoidance` from src/main.cpp. -/
def WallAvoidance (a : Agent) (screenW screenH margin strength : ℝ) : Vec2 :=
  let sx : ℝ :=
    if a.pos.x < margin then strength * (1 - a.pos.x / margin)
    else if a.pos.x > screenW - margin then -(strength * (1 - (screenW - a.pos.x) / margin))
    else 0
  let sy : ℝ :=
    if a.pos.y < margin then strength * (1 - a.pos.y / margin)
    else if a.pos.y > screenH - margin then -(strength * (1 - (screenH - a.pos.y) / margin))
    else 0
  ⟨sx, sy⟩

/-- Signed waypoint lookup: `path[i]` faults (returns `none`) when `i` is outside
`[0, path.length)`, modelling the out-of-range vector access in the C++. -/
def listGetI (path : List Vec2) (i : ℤ) : Option Vec2 :=
  if 0 ≤ i then path.get? i.toNat else none

/-- `PathFollowing` from src/main.cpp.  The by-reference waypoint index is
returned alongside the force; an out-of-range access yields `none`. -/
def PathFollowing (a : Agent) (path : List Vec2) (idx : ℤ) (waypointRadius : ℝ) :
    Option (Vec2 × ℤ) :=
  match path with
  | [] => some (⟨0, 0⟩, idx)
  | _ :: _ =>
    let idx1 := if (path.length : ℤ) ≤ idx then 0 else idx
    match listGetI path idx1 with
    | none => none
    | some target =>
      if Length (Sub target a.pos) < waypointRadius then
        let idx2 := (idx1 + 1) % (path.length : ℤ)
        match listGetI path idx2 with
        | none => none
        | some target2 => some (Arrive a.pos target2 a.maxSpeed (waypointRadius * 2.5), idx2)
      else some (Arrive a.pos target a.maxSpeed (waypointRadius * 2.5), idx1)

/-- `PrioritySteering` from src/main.cpp. -/
def PrioritySteering (forces : List Vec2) (epsilon : ℝ) : Vec2 :=
  match forces with
  | [] => ⟨0, 0⟩
  | f :: rest => if Length f > epsilon then f else PrioritySteering rest epsilon

/-- `WeightedBlend` from src/main.cpp. -/
def WeightedBlend (forces : List (Vec2 × ℝ)) (maxForce : ℝ) : Vec2 :=
  Limit (forces.foldl (fun t p => Add t (Scale p.1 p.2)) ⟨0, 0⟩) maxForce

/-- Single-agent boundary policy (src/main.cpp lines 365-368): each coordinate is
clamped into the screen rectangle, one `if` at a time as in the source. -/
def clampPos (p : Vec2) (w h : ℝ) : Vec2 :=
  let x := if p.x < 0 then 0 else p.x
  let y := if p.y < 0 then 0 else p.y
  let x := if x > w then w else x
  let y := if y > h then h else y
  ⟨x, y⟩

/-- Multi-agent boundary policy (src/main.cpp lines 431-434): a coordinate more
than 60 outside the screen teleports to the opposite edge, 60 outside it. -/
def wrapPos (p : Vec2) (w h : ℝ) : Vec2 :=
  let x := if p.x < -60 then w + 60 else p.x
  let x := if x > w + 60 then -60 else x
  let y := if p.y < -60 then h + 60 else p.y
  let y := if y > h + 60 then -60 else y
  ⟨x, y⟩

/-- The clamped steering force applied in the single-agent branch
(src/main.cpp lines 356-357). -/
def singleApplied (player : Agent) (steering : Vec2) : Vec2 :=
  Limit (Sub steering player.vel) player.maxForce

/-- One single-agent integration step (src/main.cpp lines 356-368): clamp the
steering to `maxForce`, add to velocity, clamp to `maxSpeed`, advance the
position, clamp it to the screen. -/
def singleUpdate (player : Agent) (steering : Vec2) (w h : ℝ) : Agent :=
  let v := Limit (Add player.vel (singleApplied player steering)) player.maxSpeed
  { player with vel := v, pos := clampPos (Add player.pos v) w h }

/-- Per-tick configuration of the multi-agent branch: the enable toggles, the
combination-strategy toggle and the tunables of src/main.cpp lines 274-294. -/
structure Config where
  enablePath : Bool
  enableSep : Bool
  enablePredict : Bool
  enableObs : Bool
  enableWall : Bool
  usePriority : Bool
  separationRadius : ℝ
  separationStrength : ℝ
  predictiveLookAhead : ℝ
  predictiveStrength : ℝ
  obstacleLookAhead : ℝ
  obstacleStrength : ℝ
  wallMargin : ℝ
  wallStrength : ℝ
  pathWaypointRadius : ℝ
  screenW : ℝ
  screenH : ℝ
  path : List Vec2
  obstacles : List (Vec2 × ℝ)

/-- Path-following result used by the multi-agent loop: desired velocity and the
updated per-agent waypoint index.  An out-of-range access is undefined behavior
in the C++ (never reached for the simulation's own indices); it is modelled as a
zero contribution with the index left unchanged. -/
def pathResult (cfg : Config) (a : Agent) : Vec2 × ℤ :=
  if cfg.enablePath then
    (PathFollowing a cfg.path a.pathIndex cfg.pathWaypointRadius).getD (⟨0, 0⟩, a.pathIndex)
  else (⟨0, 0⟩, a.pathIndex)

/-- Pairwise predictive-avoidance loop (src/main.cpp lines 390-394): sum of
`PredictiveAvoidance` over every other agent, skipping index `selfIdx`. -/
def predictSum (a : Agent) (selfIdx : Nat) (t F : ℝ) : Nat → List Agent → Vec2 → Vec2
  | _, [], s => s
  | j, b :: rest, s =>
      predictSum a selfIdx t F (j + 1) rest
        (if j = selfIdx then s else Add s (PredictiveAvoidance a b t F))

/-- The combined steering force for agent `i` (src/main.cpp lines 376-422),
before the final clamp to `maxForce`. -/
def composedSteer (cfg : Config) (agents : List Agent) (i : Nat) : Vec2 :=
  let a := agents.getD i default
  let steerPath := if cfg.enablePath then Sub (pathResult cfg a).1 a.vel else ⟨0, 0⟩
  let steerSep :=
    if cfg.enableSep then Separation agents i cfg.separationRadius cfg.separationStrength
    else ⟨0, 0⟩
  let steerPredict :=
    if cfg.enablePredict then
      predictSum a i cfg.predictiveLookAhead cfg.predictiveStrength 0 agents ⟨0, 0⟩
    else ⟨0, 0⟩
  let steerObs :=
    if cfg.enableObs then
      ObstacleAvoidance a cfg.obstacles cfg.obstacleLookAhead cfg.obstacleStrength
    else ⟨0, 0⟩
  let steerWall :=
    if cfg.enableWall then
      WallAvoidance a cfg.screenW cfg.screenH cfg.wallMargin cfg.wallStrength
    else ⟨0, 0⟩
  if cfg.usePriority then
    PrioritySteering
      [Limit (Add (Scale steerObs 2) (Scale steerWall 1.8)) a.maxForce,
       Limit (Add (Scale steerPredict 1.4) (Scale steerSep 1.2)) a.maxForce,
       Limit (Scale steerPath 0.9) a.maxForce] 0.001
  else
    WeightedBlend
      [(steerObs, 1.8), (steerWall, 1.4), (steerPredict, 1.2), (steerSep, 1), (steerPath, 0.9)]
      a.maxForce

/-- The force actually added to agent `i`'s velocity (src/main.cpp line 425). -/
def appliedSteer (cfg : Config) (agents : List Agent) (i : Nat) : Vec2 :=
  Limit (composedSteer cfg agents i) (agents.getD i default).maxForce

/-- Agent `i`'s velocity after the update (src/main.cpp lines 426-427). -/
def newVel (cfg : Config) (agents : List Agent) (i : Nat) : Vec2 :=
  let a := agents.getD i default
  Limit (Add a.vel (appliedSteer cfg agents i)) a.maxSpeed

/-- The full per-agent update of the multi-agent loop body
(src/main.cpp lines 372-435), reading the current list `agents`. -/
def stepAgent (cfg : Config) (agents : List Agent) (i : Nat) : Agent :=
  let a := agents.getD i default
  { a with
    acc := ⟨0, 0⟩
    pathIndex := (pathResult cfg a).2
    vel := newVel cfg agents i
    pos := wrapPos (Add a.pos (newVel cfg agents i)) cfg.screenW cfg.screenH }

/-- Sequential tick loop: `n` remaining iterations, next index `i`.  Each
iteration writes agent `i`'s update back into the list before the next agent is
processed, exactly as the in-place mutation of the C++ loop. -/
def tickAux (cfg : Config) : Nat → List Agent → Nat → List Agent
  | 0, agents, _ => agents
  | n + 1, agents, i => tickAux cfg n (agents.set i (stepAgent cfg agents i)) (i + 1)

/-- One multi-agent simulation tick (src/main.cpp lines 372-435). -/
def tick (cfg : Config) (agents : List Agent) : List Agent :=
  tickAux cfg agents.length agents 0

/-- The list as it stands when agent `i` is about to be processed: agents
`0..i-1` already updated, the rest untouched. -/
def prefixTick (cfg : Config) (agents : List Agent) (i : Nat) : List Agent :=
  tickAux cfg i agents 0

/-- Start-of-tick-snapshot semantics, following the spec's words: every agent's
update is computed from the state as it stood at the start of the tick. -/
def tickSnapshot (cfg : Config) (agents : List Agent) : List Agent :=
  (List.range agents.length).map fun i => stepAgent cfg agents i

/-- Sum of a list of vectors. -/
def vecSum (l : List Vec2) : Vec2 := l.foldr Add ⟨0, 0⟩

/-- Declarative contribution list of `Separation`: one weighted unit vector for
every other agent at distance strictly between 0 and `radius` of `self`. -/
def sepContribs (self : Agent) (radius : ℝ) (selfIdx : Nat) : Nat → List Agent → List Vec2
  | _, [] => []
  | j, other :: rest =>
      let tail := sepContribs self radius selfIdx (j + 1) rest
      if j = selfIdx then tail
      else
        let diff := Sub self.pos other.pos
        let d := Length diff
        if 0 < d ∧ d < radius then Scale (Normalize diff) ((radius - d) / radius) :: tail
        else tail

/-- Accumulation loop of the claimed separation semantics: every other agent
within `radius` contributes — also at distance zero (exclusion by identity
only, never by position). -/
def sepAccumClaim (self : Agent) (radius : ℝ) (selfIdx : Nat) :
    Nat → List Agent → Vec2 × Nat → Vec2 × Nat
  | _, [], acc => acc
  | j, other :: rest, (steer, count) =>
      sepAccumClaim self radius selfIdx (j + 1) rest
        (if j = selfIdx then (steer, count)
         else
           let diff := Sub self.pos other.pos
           let d := Length diff
           if d < radius then
             (Add steer (Scale (Normalize diff) ((radius - d) / radius)), count + 1)
           else (steer, count))

/-- Separation as the claim states it: identical to `Separation` except that a
peer at exactly self's position still contributes. -/
def SeparationClaim (agents : List Agent) (selfIdx : Nat) (radius strength : ℝ) : Vec2 :=
  let self := agents.getD selfIdx default
  let sc := sepAccumClaim self radius selfIdx 0 agents (⟨0, 0⟩, 0)
  let steer := if sc.2 > 0 then Scale sc.1 (1 / (sc.2 : ℝ)) else sc.1
  if Length steer < 0.0001 then ⟨0, 0⟩ else Scale (Normalize steer) strength

/-- Per-obstacle contribution of `ObstacleAvoidance` as the code computes it:
the current-position test is reached only when the ahead point is outside the
buffered radius. -/
def obsContrib (pos ahead : Vec2) (avoidStrength : ℝ) (ob : Vec2 × ℝ) : Vec2 :=
  let c := ob.1
  let r := ob.2 + 8
  let dist := Length (Sub ahead c)
  if dist < r then Scale (Normalize (Sub ahead c)) ((r - dist) * avoidStrength)
  else
    let nowDist := Length (Sub pos c)
    if nowDist < r then Scale (Normalize (Sub pos c)) ((r - nowDist) * avoidStrength * 0.8)
    else ⟨0, 0⟩

/-- Obstacle loop as the claim states it: the current-position test runs for
every obstacle, independently of the ahead-point test. -/
def obsLoopClaim (pos ahead : Vec2) (avoidStrength : ℝ) : List (Vec2 × ℝ) → Vec2 → Vec2
  | [], steer => steer
  | ob :: rest, steer =>
      let c := ob.1
      let r := ob.2 + 8
      let dist := Length (Sub ahead c)
      let s1 :=
        if dist < r then
          Add steer (Scale (Normalize (Sub ahead c)) ((r - dist) * avoidStrength))
        else steer
      let nowDist := Length (Sub pos c)
      let s2 :=
        if nowDist < r then
          Add s1 (Scale (Normalize (Sub pos c)) ((r - nowDist) * avoidStrength * 0.8))
        else s1
      obsLoopClaim pos ahead avoidStrength rest s2

/-- Obstacle avoidance as the claim states it: both tests independent per
obstacle, otherwise identical to `ObstacleAvoidance`. -/
def ObstacleAvoidanceClaim (agent : Agent) (obstacles : List (Vec2 × ℝ))
    (lookAhead avoidStrength : ℝ) : Vec2 :=
  let h0 := Normalize agent.vel
  let heading := if Length h0 < 0.01 then (⟨0, -1⟩ : Vec2) else h0
  let ahead := Add agent.pos (Scale heading lookAhead)
  let steer := obsLoopClaim agent.pos ahead avoidStrength obstacles ⟨0, 0⟩
  if Length steer < 0.001 then ⟨0, 0⟩ else Limit steer avoidStrength

theorem Sub_self (v : Vec2) : Sub v v = ⟨0, 0⟩ := by
  simp [Sub]

theorem Add_zero_vec (v : Vec2) : Add v ⟨0, 0⟩ = v := by
  cases v; simp [Add]

theorem Add_assoc_vec (a b c : Vec2) : Add (Add a b) c = Add a (Add b c) := by
  simp [Add]; constructor <;> ring

/-- Claim C1: in both the single-agent and the multi-agent branch, the composed
steering force is clamped to magnitude at most `maxForce` before it is added to
the velocity, and after the update the velocity magnitude is at most `maxSpeed`. -/
theorem clamped_force_and_speed :
    (∀ (player : Agent) (steering : Vec2) (w h : ℝ),
       0 ≤ player.maxForce → 0 ≤ player.maxSpeed →
       Length (singleApplied player steering) ≤ player.maxForce ∧
       Length (singleUpdate player steering w h).vel ≤ player.maxSpeed) ∧
    (∀ (cfg : Config) (agents : List Agent) (i : Nat),
       0 ≤ (agents.getD i default).maxForce → 0 ≤ (agents.getD i default).maxSpeed →
       Length (appliedSteer cfg agents i) ≤ (agents.getD i default).maxForce ∧
       Length (stepAgent cfg agents i).vel ≤ (agents.getD i default).maxSpeed) := by
  constructor
  · intro player steering w h hF hS
    refine ⟨Length_limit_le _ _ hF, ?_⟩
    show Length (Limit _ _) ≤ _
    exact Length_limit_le _ _ hS
  · intro cfg agents i hF hS
    refine ⟨Length_limit_le _ _ hF, ?_⟩
    show Length (newVel cfg agents i) ≤ _
    unfold newVel
    exact Length_limit_le _ _ hS

theorem clamped_force_and_speed_witness :
    Length (singleApplied ⟨⟨500, 400⟩, ⟨0.05, 0⟩, ⟨0, 0⟩, 3, 0.12, 0⟩ ⟨3, 0⟩) ≤ 0.12 ∧
    Length (singleUpdate ⟨⟨500, 400⟩, ⟨0.05, 0⟩, ⟨0, 0⟩, 3, 0.12, 0⟩ ⟨3, 0⟩ 1800 1000).vel ≤ 3 :=
  clamped_force_and_speed.1 ⟨⟨500, 400⟩, ⟨0.05, 0⟩, ⟨0, 0⟩, 3, 0.12, 0⟩ ⟨3, 0⟩ 1800 1000
    (by norm_num) (by norm_num)

/-- Claim C7: `PrioritySteering` returns the first force whose magnitude exceeds
`epsilon`, regardless of the later forces, and the zero vector when every force
(also in the empty list) has magnitude at most `epsilon`. -/
theorem priority_picks_first :
    (∀ ε : ℝ, PrioritySteering [] ε = ⟨0, 0⟩) ∧
    (∀ (l : List Vec2) (ε : ℝ), (∀ f ∈ l, Length f ≤ ε) → PrioritySteering l ε = ⟨0, 0⟩) ∧
    (∀ (l₁ : List Vec2) (f : Vec2) (l₂ : List Vec2) (ε : ℝ),
       (∀ g ∈ l₁, Length g ≤ ε) → Length f > ε →
       PrioritySteering (l₁ ++ f :: l₂) ε = f) := by
  refine ⟨fun ε => rfl, ?_, ?_⟩
  · intro l ε hl
    induction l with
    | nil => rfl
    | cons g rest ih =>
      rw [PrioritySteering, if_neg (not_lt.mpr (hl g (List.mem_cons_self g rest)))]
      exact ih fun f hf => hl f (List.mem_cons_of_mem g hf)
  · intro l₁ f l₂ ε h₁ hf
    induction l₁ with
    | nil =>
      rw [List.nil_append, PrioritySteering, if_pos hf]
    | cons g rest ih =>
      rw [List.cons_append, PrioritySteering,
        if_neg (not_lt.mpr (h₁ g (List.mem_cons_self g rest)))]
      exact ih fun x hx => h₁ x (List.mem_cons_of_mem g hx)

theorem priority_picks_first_witness :
    PrioritySteering [⟨0, 0⟩, ⟨2, 0⟩, ⟨9, 9⟩] 0.001 = ⟨2, 0⟩ :=
  priority_picks_first.2.2 [⟨0, 0⟩] ⟨2, 0⟩ [⟨9, 9⟩] 0.001
    (by
      intro g hg
      simp only [List.mem_singleton] at hg
      rw [hg, Length_zero]; norm_num)
    (by rw [Length_mk_x]; norm_num)

/-- Claim C9: after the position update, single-target mode hard-clamps each
coordinate into `[0, w] × [0, h]`, while multi-agent mode leaves positions within
bounds-plus-60 unchanged and teleports a coordinate more than 60 outside the
bounds to the opposite edge, offset outward by 60; the two step functions apply
exactly these policies. -/
theorem boundary_policies :
    (∀ (p : Vec2) (w h : ℝ), 0 ≤ w → 0 ≤ h →
       clampPos p w h = ⟨min w (max 0 p.x), min h (max 0 p.y)⟩) ∧
    (∀ (p : Vec2) (w h : ℝ), 0 ≤ w → 0 ≤ h →
       (-60 ≤ p.x → p.x ≤ w + 60 → (wrapPos p w h).x = p.x) ∧
       (p.x < -60 → (wrapPos p w h).x = w + 60) ∧
       (w + 60 < p.x → (wrapPos p w h).x = -60) ∧
       (-60 ≤ p.y → p.y ≤ h + 60 → (wrapPos p w h).y = p.y) ∧
       (p.y < -60 → (wrapPos p w h).y = h + 60) ∧
       (h + 60 < p.y → (wrapPos p w h).y = -60)) ∧
    (∀ (player : Agent) (steering : Vec2) (w h : ℝ),
       (singleUpdate player steering w h).pos =
         clampPos (Add player.pos (singleUpdate player steering w h).vel) w h) ∧
    (∀ (cfg : Config) (agents : List Agent) (i : Nat),
       (stepAgent cfg agents i).pos =
         wrapPos (Add (agents.getD i default).pos (stepAgent cfg agents i).vel)
           cfg.screenW cfg.screenH) := by
  refine ⟨?_, ?_, fun player steering w h => rfl, fun cfg agents i => rfl⟩
  · intro p w h hw hh
    unfold clampPos
    simp only [Vec2.mk.injEq]
    constructor
    · split_ifs with h1 h2 h3 <;>
        [skip; skip; skip; skip] <;>
        rw [min_def, max_def] <;> split_ifs <;> linarith
    · split_ifs with h1 h2 h3 <;>
        [skip; skip; skip; skip] <;>
        rw [min_def, max_def] <;> split_ifs <;> linarith
  · intro p w h hw hh
    refine ⟨?_, ?_, ?_, ?_, ?_, ?_⟩ <;> intros <;> simp only [wrapPos] <;> split_ifs <;>
      first | rfl | linarith

theorem boundary_policies_witness :
    clampPos ⟨-5, 2000⟩ 1800 1000 = ⟨min 1800 (max 0 (-5)), min 1000 (max 0 2000)⟩ :=
  boundary_policies.1 ⟨-5, 2000⟩ 1800 1000 (by norm_num) (by norm_num)

theorem sepAccum_all_coincident (self : Agent) (radius : ℝ) (selfIdx : Nat) :
    ∀ (l : List Agent) (j : Nat) (acc : Vec2 × Nat),
      (∀ o ∈ l, o.pos = self.pos) → sepAccum self radius selfIdx j l acc = acc := by
  intro l
  induction l with
  | nil => intro j acc _; rfl
  | cons other rest ih =>
    intro j acc hl
    obtain ⟨steer, count⟩ := acc
    rw [sepAccum]
    have hpos : other.pos = self.pos := hl other (List.mem_cons_self other rest)
    have hd : Length (Sub self.pos other.pos) = 0 := by
      rw [hpos, Sub_self, Length_zero]
    have hcond : ¬ (0 < Length (Sub self.pos other.pos) ∧
        Length (Sub self.pos other.pos) < radius) := by
      rw [hd]; intro hc; exact lt_irrefl 0 hc.1
    have hrest : ∀ o ∈ rest, o.pos = self.pos :=
      fun o ho => hl o (List.mem_cons_of_mem other ho)
    by_cases hj : j = selfIdx
    · rw [if_pos hj]; exact ih (j + 1) (steer, count) hrest
    · rw [if_neg hj, if_neg hcond]; exact ih (j + 1) (steer, count) hrest

/-- Claim C10: `PredictiveAvoidance` returns the zero vector whenever the
predicted distance is at most 0.001 or at least 24 (in particular for coincident
agents with equal velocities), and `Separation` yields the zero vector when every
agent sits at self's exact position — coincident agents get no pairwise repulsion. -/
theorem coincident_agents_no_repulsion :
    (∀ (a b : Agent) (t F : ℝ),
       Length (Sub (Add a.pos (Scale a.vel t)) (Add b.pos (Scale b.vel t))) ≤ 0.001 →
       PredictiveAvoidance a b t F = ⟨0, 0⟩) ∧
    (∀ (a b : Agent) (t F : ℝ),
       24 ≤ Length (Sub (Add a.pos (Scale a.vel t)) (Add b.pos (Scale b.vel t))) →
       PredictiveAvoidance a b t F = ⟨0, 0⟩) ∧
    (∀ (a b : Agent) (t F : ℝ), a.pos = b.pos → a.vel = b.vel →
       PredictiveAvoidance a b t F = ⟨0, 0⟩) ∧
    (∀ (agents : List Agent) (i : Nat) (r s : ℝ),
       (∀ o ∈ agents, o.pos = (agents.getD i default).pos) →
       Separation agents i r s = ⟨0, 0⟩) := by
  refine ⟨?_, ?_, ?_, ?_⟩
  · intro a b t F hle
    unfold PredictiveAvoidance
    rw [if_neg]
    intro hc
    exact absurd hc.2 (not_lt.mpr hle)
  · intro a b t F hge
    unfold PredictiveAvoidance
    rw [if_neg]
    intro hc
    exact absurd hc.1 (not_lt.mpr hge)
  · intro a b t F hp hv
    unfold PredictiveAvoidance
    rw [if_neg]
    intro hc
    rw [hp, hv, Sub_self, Length_zero] at hc
    exact absurd hc.2 (by norm_num)
  · intro agents i r s hl
    unfold Separation
    simp only
    rw [sepAccum_all_coincident _ _ _ _ _ _ hl]
    norm_num [Length_zero]

theorem coincident_agents_no_repulsion_witness :
    PredictiveAvoidance ⟨⟨100, 100⟩, ⟨1, 2⟩, ⟨0, 0⟩, 2.4, 0.14, 0⟩
      ⟨⟨100, 100⟩, ⟨1, 2⟩, ⟨0, 0⟩, 2.4, 0.14, 3⟩ 0.9 0.9 = ⟨0, 0⟩ :=
  coincident_agents_no_repulsion.2.2.1 _ _ 0.9 0.9 rfl rfl

theorem Scale_zero_right (v : Vec2) : Scale v 0 = ⟨0, 0⟩ := by
  simp [Scale]

/-- Two distinct agents whose predicted positions coincide: the claimed minimum
push `0.4 * maxAvoidForce` does not appear — the code returns the zero vector. -/
def pvA : Agent := ⟨⟨200, 300⟩, ⟨1, 1⟩, ⟨0, 0⟩, 2.4, 0.14, 0⟩

/-- Second agent of the `PredictiveAvoidance` counterexample, coincident with
`pvA` in position and velocity. -/
def pvB : Agent := ⟨⟨200, 300⟩, ⟨1, 1⟩, ⟨0, 0⟩, 2.6, 0.14, 2⟩

/-- Claim C5 is false as stated: the predicted positions of `pvA` and `pvB` are
closer than the combined radius 24, yet the returned force is zero, not of
magnitude at least `0.4 * maxAvoidForce` — the guard `dist > 0.001` also has to
hold for a force to be produced. -/
theorem predictive_min_push_cex :
    Length (Sub (Add pvA.pos (Scale pvA.vel 0.9)) (Add pvB.pos (Scale pvB.vel 0.9))) < 24 ∧
    PredictiveAvoidance pvA pvB 0.9 0.9 = ⟨0, 0⟩ ∧
    ¬ 0.4 * 0.9 ≤ Length (PredictiveAvoidance pvA pvB 0.9 0.9) := by
  have hsub : Sub (Add pvA.pos (Scale pvA.vel 0.9)) (Add pvB.pos (Scale pvB.vel 0.9)) =
      (⟨0, 0⟩ : Vec2) := by
    simp only [pvA, pvB, Add, Scale, Sub]
    norm_num
  have hzero : PredictiveAvoidance pvA pvB 0.9 0.9 = ⟨0, 0⟩ := by
    unfold PredictiveAvoidance
    simp only
    rw [if_neg]
    rw [hsub, Length_zero]
    intro hc
    exact absurd hc.2 (by norm_num)
  refine ⟨?_, hzero, ?_⟩
  · rw [hsub, Length_zero]; norm_num
  · rw [hzero, Length_zero]; norm_num

/-- Claim C5 (amended): when the predicted distance lies strictly between 0.001
and the combined radius 24 and `maxAvoidForce` is nonnegative,
`PredictiveAvoidance` returns a force away from `b`'s predicted position with
magnitude `maxAvoidForce * (0.4 + 0.6 * (24 - dist)/24)`, which is at least
`0.4 * maxAvoidForce`. -/
theorem predictive_force_in_window (a b : Agent) (t F : ℝ)
    (h1 : 0.001 < Length (Sub (Add a.pos (Scale a.vel t)) (Add b.pos (Scale b.vel t))))
    (h2 : Length (Sub (Add a.pos (Scale a.vel t)) (Add b.pos (Scale b.vel t))) < 24)
    (h3 : 0 ≤ F) :
    PredictiveAvoidance a b t F =
      Scale (Normalize (Sub (Add a.pos (Scale a.vel t)) (Add b.pos (Scale b.vel t))))
        (F * (0.4 + 0.6 *
          ((24 - Length (Sub (Add a.pos (Scale a.vel t)) (Add b.pos (Scale b.vel t)))) / 24))) ∧
    Length (PredictiveAvoidance a b t F) =
      F * (0.4 + 0.6 *
        ((24 - Length (Sub (Add a.pos (Scale a.vel t)) (Add b.pos (Scale b.vel t)))) / 24)) ∧
    0.4 * F ≤ Length (PredictiveAvoidance a b t F) := by
  have hne : Length (Sub (Add a.pos (Scale a.vel t)) (Add b.pos (Scale b.vel t))) ≠ 0 := by
    intro h; rw [h] at h1; norm_num at h1
  have hq : 0 ≤ (24 - Length (Sub (Add a.pos (Scale a.vel t)) (Add b.pos (Scale b.vel t)))) / 24 :=
    div_nonneg (by linarith) (by norm_num)
  have hc : 0 ≤ F * (0.4 + 0.6 *
      ((24 - Length (Sub (Add a.pos (Scale a.vel t)) (Add b.pos (Scale b.vel t)))) / 24)) :=
    mul_nonneg h3 (by linarith)
  have heq : PredictiveAvoidance a b t F =
      Scale (Normalize (Sub (Add a.pos (Scale a.vel t)) (Add b.pos (Scale b.vel t))))
        (F * (0.4 + 0.6 *
          ((24 - Length (Sub (Add a.pos (Scale a.vel t)) (Add b.pos (Scale b.vel t)))) / 24))) := by
    unfold PredictiveAvoidance
    simp only
    rw [if_pos ⟨h2, h1⟩]
  have hlen : Length (PredictiveAvoidance a b t F) =
      F * (0.4 + 0.6 *
        ((24 - Length (Sub (Add a.pos (Scale a.vel t)) (Add b.pos (Scale b.vel t)))) / 24)) := by
    rw [heq, Length_scale, Length_normalize _ hne, mul_one, abs_of_nonneg hc]
  refine ⟨heq, hlen, ?_⟩
  rw [hlen]
  nlinarith [mul_nonneg h3 hq]

theorem predictive_force_in_window_witness :
    0.4 * 1 ≤ Length (PredictiveAvoidance ⟨⟨0, 0⟩, ⟨0, 0⟩, ⟨0, 0⟩, 2.4, 0.14, 0⟩
      ⟨⟨3, 4⟩, ⟨0, 0⟩, ⟨0, 0⟩, 2.4, 0.14, 0⟩ 0.9 1) := by
  have hlen : Length (Sub (Add (⟨⟨0, 0⟩, ⟨0, 0⟩, ⟨0, 0⟩, 2.4, 0.14, 0⟩ : Agent).pos
      (Scale (⟨⟨0, 0⟩, ⟨0, 0⟩, ⟨0, 0⟩, 2.4, 0.14, 0⟩ : Agent).vel 0.9))
      (Add (⟨⟨3, 4⟩, ⟨0, 0⟩, ⟨0, 0⟩, 2.4, 0.14, 0⟩ : Agent).pos
      (Scale (⟨⟨3, 4⟩, ⟨0, 0⟩, ⟨0, 0⟩, 2.4, 0.14, 0⟩ : Agent).vel 0.9))) = 5 := by
    show Length ⟨0 + 0 * 0.9 - (3 + 0 * 0.9), 0 + 0 * 0.9 - (4 + 0 * 0.9)⟩ = 5
    unfold Length
    norm_num
    rw [show (25 : ℝ) = 5 ^ 2 by norm_num]
    exact Real.sqrt_sq (by norm_num)
  exact (predictive_force_in_window _ _ 0.9 1 (by rw [hlen]; norm_num)
    (by rw [hlen]; norm_num) (by norm_num)).2.2

/-- Claim C6 is false as stated: with `slowingRadius = 0.0001 > 0` and a target
at distance `0.0005 ≥ slowingRadius`, the claim demands magnitude exactly
`maxSpeed = 1`, but the epsilon cutoff (`dist < 0.001`) returns the zero vector. -/
theorem arrive_profile_cex :
    (0 : ℝ) < 1 ∧ (0 : ℝ) < 0.0001 ∧
    0.0001 ≤ Length (Sub ⟨0.0005, 0⟩ (⟨0, 0⟩ : Vec2)) ∧
    Arrive ⟨0, 0⟩ ⟨0.0005, 0⟩ 1 0.0001 = ⟨0, 0⟩ ∧
    Length (Arrive ⟨0, 0⟩ ⟨0.0005, 0⟩ 1 0.0001) ≠ 1 := by
  have hsub : Sub ⟨0.0005, 0⟩ (⟨0, 0⟩ : Vec2) = ⟨0.0005, 0⟩ := by
    simp [Sub]
  have hd : Length (Sub ⟨0.0005, 0⟩ (⟨0, 0⟩ : Vec2)) = 0.0005 := by
    rw [hsub, Length_mk_x]; norm_num
  have hz : Arrive ⟨0, 0⟩ ⟨0.0005, 0⟩ 1 0.0001 = ⟨0, 0⟩ := by
    unfold Arrive
    simp only
    rw [if_pos (by rw [hd]; norm_num)]
  refine ⟨by norm_num, by norm_num, by rw [hd]; norm_num, hz, ?_⟩
  rw [hz, Length_zero]; norm_num

/-- Claim C6 (amended): for `maxSpeed s > 0` and `slowingRadius r > 0`,
`Arrive` returns the zero vector when the distance is below the 0.001 epsilon;
for distances of at least 0.001 it has magnitude exactly `s` when
`distance ≥ r` and `s * (distance / r)` when `distance < r`; its magnitude
never exceeds `s`, and it always points from `pos` toward `target`. -/
theorem arrive_profile (pos target : Vec2) (s r : ℝ) (hs : 0 < s) (hr : 0 < r) :
    (Length (Sub target pos) < 0.001 → Arrive pos target s r = ⟨0, 0⟩) ∧
    (0.001 ≤ Length (Sub target pos) → r ≤ Length (Sub target pos) →
       Length (Arrive pos target s r) = s) ∧
    (0.001 ≤ Length (Sub target pos) → Length (Sub target pos) < r →
       Length (Arrive pos target s r) = s * (Length (Sub target pos) / r)) ∧
    Length (Arrive pos target s r) ≤ s ∧
    ∃ c : ℝ, 0 ≤ c ∧ Arrive pos target s r = Scale (Normalize (Sub target pos)) c := by
  have hd0 : 0 ≤ Length (Sub target pos) := Length_nonneg _
  have hzero : Length (Sub target pos) < 0.001 → Arrive pos target s r = ⟨0, 0⟩ := by
    intro h
    unfold Arrive
    simp only
    rw [if_pos h]
  have harr : 0.001 ≤ Length (Sub target pos) →
      Arrive pos target s r = Scale (Normalize (Sub target pos))
        (if s * (Length (Sub target pos) / r) > s then s
         else s * (Length (Sub target pos) / r)) := by
    intro h
    unfold Arrive
    simp only
    rw [if_neg (not_lt.mpr h)]
  refine ⟨hzero, ?_, ?_, ?_, ?_⟩
  · intro h001 hrd
    have hne : Length (Sub target pos) ≠ 0 := by intro h; rw [h] at h001; norm_num at h001
    have hge : s ≤ s * (Length (Sub target pos) / r) := by
      have h1 : 1 ≤ Length (Sub target pos) / r := (one_le_div hr).mpr hrd
      nlinarith
    rw [harr h001]
    by_cases hsp : s * (Length (Sub target pos) / r) > s
    · rw [if_pos hsp, Length_scale, Length_normalize _ hne, mul_one, abs_of_nonneg hs.le]
    · rw [if_neg hsp, Length_scale, Length_normalize _ hne, mul_one]
      have : s * (Length (Sub target pos) / r) = s := le_antisymm (not_lt.mp hsp) hge
      rw [this, abs_of_nonneg hs.le]
  · intro h001 hdr
    have hne : Length (Sub target pos) ≠ 0 := by intro h; rw [h] at h001; norm_num at h001
    have hlt : s * (Length (Sub target pos) / r) < s := by
      have h1 : Length (Sub target pos) / r < 1 := (div_lt_one hr).mpr hdr
      nlinarith
    rw [harr h001, if_neg (not_lt.mpr hlt.le), Length_scale, Length_normalize _ hne, mul_one,
      abs_of_nonneg (by positivity)]
  · by_cases h : Length (Sub target pos) < 0.001
    · rw [hzero h, Length_zero]; exact hs.le
    · have h001 : 0.001 ≤ Length (Sub target pos) := not_lt.mp h
      have hne : Length (Sub target pos) ≠ 0 := by intro hx; rw [hx] at h001; norm_num at h001
      rw [harr h001]
      by_cases hsp : s * (Length (Sub target pos) / r) > s
      · rw [if_pos hsp, Length_scale, Length_normalize _ hne, mul_one, abs_of_nonneg hs.le]
      · rw [if_neg hsp, Length_scale, Length_normalize _ hne, mul_one,
          abs_of_nonneg (by positivity)]
        exact not_lt.mp hsp
  · by_cases h : Length (Sub target pos) < 0.001
    · exact ⟨0, le_refl 0, by rw [hzero h, Scale_zero_right]⟩
    · have h001 : 0.001 ≤ Length (Sub target pos) := not_lt.mp h
      refine ⟨if s * (Length (Sub target pos) / r) > s then s
        else s * (Length (Sub target pos) / r), ?_, harr h001⟩
      by_cases hsp : s * (Length (Sub target pos) / r) > s
      · rw [if_pos hsp]; exact hs.le
      · rw [if_neg hsp]; positivity

theorem arrive_profile_witness :
    Length (Arrive ⟨0, 0⟩ ⟨3, 4⟩ 2 10) ≤ 2 :=
  (arrive_profile ⟨0, 0⟩ ⟨3, 4⟩ 2 10 (by norm_num) (by norm_num)).2.2.2.1

/-- Claim C8 is false as stated: the wrap at the start of `PathFollowing` only
handles indices at or above the path length; a negative index is passed straight
to the waypoint access, which is out of range — an out-of-range vector access
(undefined behavior in the C++, modelled as `none`). -/
theorem pathfollow_negative_cex :
    PathFollowing ⟨⟨0, 0⟩, ⟨0, 0⟩, ⟨0, 0⟩, 3, 0.12, 0⟩ [⟨50, 50⟩] (-1) 10 = none := by
  show (let idx1 := if ((1 : ℕ) : ℤ) ≤ -1 then 0 else -1
    match listGetI [⟨50, 50⟩] idx1 with
    | none => none
    | some target =>
      if Length (Sub target (⟨0, 0⟩ : Vec2)) < 10 then
        match listGetI [⟨50, 50⟩] ((idx1 + 1) % ((1 : ℕ) : ℤ)) with
        | none => none
        | some target2 => some (Arrive ⟨0, 0⟩ target2 3 (10 * 2.5), (idx1 + 1) % ((1 : ℕ) : ℤ))
      else some (Arrive ⟨0, 0⟩ target 3 (10 * 2.5), idx1)) = none
  norm_num [listGetI]

/-- Claim C8 (amended): for a non-empty path, an index at or above the path
length is wrapped to 0 at the start of the call, and every nonnegative integer
index is safe (no out-of-range access); a negative index is not wrapped and
faults. -/
theorem pathfollow_wrap (a : Agent) (path : List Vec2) (idx : ℤ) (r : ℝ)
    (hne : path ≠ []) :
    ((path.length : ℤ) ≤ idx → PathFollowing a path idx r = PathFollowing a path 0 r) ∧
    (0 ≤ idx → (PathFollowing a path idx r).isSome) ∧
    (idx < 0 → PathFollowing a path idx r = none) := by
  obtain ⟨p, ps, rfl⟩ : ∃ p ps, path = p :: ps := by
    cases path with
    | nil => exact absurd rfl hne
    | cons p ps => exact ⟨p, ps, rfl⟩
  have hlen : 0 < ((p :: ps).length : ℤ) := by
    simp
  refine ⟨?_, ?_, ?_⟩
  · intro hge
    show (let idx1 := if ((p :: ps).length : ℤ) ≤ idx then 0 else idx
      match listGetI (p :: ps) idx1 with
      | none => none
      | some target =>
        if Length (Sub target a.pos) < r then
          match listGetI (p :: ps) ((idx1 + 1) % ((p :: ps).length : ℤ)) with
          | none => none
          | some target2 =>
            some (Arrive a.pos target2 a.maxSpeed (r * 2.5), (idx1 + 1) % ((p :: ps).length : ℤ))
        else some (Arrive a.pos target a.maxSpeed (r * 2.5), idx1)) =
      PathFollowing a (p :: ps) 0 r
    rw [if_pos hge]
    show _ = (let idx1 := if ((p :: ps).length : ℤ) ≤ 0 then 0 else 0
      match listGetI (p :: ps) idx1 with
      | none => none
      | some target =>
        if Length (Sub target a.pos) < r then
          match listGetI (p :: ps) ((idx1 + 1) % ((p :: ps).length : ℤ)) with
          | none => none
          | some target2 =>
            some (Arrive a.pos target2 a.maxSpeed (r * 2.5), (idx1 + 1) % ((p :: ps).length : ℤ))
        else some (Arrive a.pos target a.maxSpeed (r * 2.5), idx1))
    rw [ite_self]
  · intro h0
    show (match listGetI (p :: ps) (if ((p :: ps).length : ℤ) ≤ idx then 0 else idx) with
      | none => none
      | some target =>
        if Length (Sub target a.pos) < r then
          match listGetI (p :: ps)
              (((if ((p :: ps).length : ℤ) ≤ idx then 0 else idx) + 1) %
                ((p :: ps).length : ℤ)) with
          | none => none
          | some target2 =>
            some (Arrive a.pos target2 a.maxSpeed (r * 2.5),
              ((if ((p :: ps).length : ℤ) ≤ idx then 0 else idx) + 1) %
                ((p :: ps).length : ℤ))
        else some (Arrive a.pos target a.maxSpeed (r * 2.5),
          if ((p :: ps).length : ℤ) ≤ idx then 0 else idx)) |>.isSome
    set idx1 : ℤ := if ((p :: ps).length : ℤ) ≤ idx then 0 else idx with hidx1
    have hrange1 : 0 ≤ idx1 ∧ idx1 < ((p :: ps).length : ℤ) := by
      rw [hidx1]
      split_ifs with hcase
      · exact ⟨le_refl 0, hlen⟩
      · exact ⟨h0, not_le.mp hcase⟩
    have hget1 : ∃ v, listGetI (p :: ps) idx1 = some v := by
      rw [listGetI, if_pos hrange1.1]
      have : idx1.toNat < (p :: ps).length := by
        omega
      exact ⟨_, List.get?_eq_get this⟩
    obtain ⟨v, hv⟩ := hget1
    rw [hv]
    simp only
    split_ifs with hdist
    · have hrange2 : 0 ≤ (idx1 + 1) % ((p :: ps).length : ℤ) ∧
          (idx1 + 1) % ((p :: ps).length : ℤ) < ((p :: ps).length : ℤ) :=
        ⟨Int.emod_nonneg _ (ne_of_gt hlen), Int.emod_lt_of_pos _ hlen⟩
      have hget2 : ∃ v2, listGetI (p :: ps) ((idx1 + 1) % ((p :: ps).length : ℤ)) = some v2 := by
        rw [listGetI, if_pos hrange2.1]
        have : ((idx1 + 1) % ((p :: ps).length : ℤ)).toNat < (p :: ps).length := by
          omega
        exact ⟨_, List.get?_eq_get this⟩
      obtain ⟨v2, hv2⟩ := hget2
      rw [hv2]
      rfl
    · rfl
  · intro hneg
    show (match listGetI (p :: ps) (if ((p :: ps).length : ℤ) ≤ idx then 0 else idx) with
      | none => none
      | some target =>
        if Length (Sub target a.pos) < r then
          match listGetI (p :: ps)
              (((if ((p :: ps).length : ℤ) ≤ idx then 0 else idx) + 1) %
                ((p :: ps).length : ℤ)) with
          | none => none
          | some target2 =>
            some (Arrive a.pos target2 a.maxSpeed (r * 2.5),
              ((if ((p :: ps).length : ℤ) ≤ idx then 0 else idx) + 1) %
                ((p :: ps).length : ℤ))
        else some (Arrive a.pos target a.maxSpeed (r * 2.5),
          if ((p :: ps).length : ℤ) ≤ idx then 0 else idx)) = none
    rw [if_neg (show ¬ ((p :: ps).length : ℤ) ≤ idx by omega)]
    rw [show listGetI (p :: ps) idx = none from by rw [listGetI, if_neg (not_le.mpr hneg)]]

theorem Zero_add_vec (v : Vec2) : Add ⟨0, 0⟩ v = v := by
  cases v; simp [Add]

theorem Normalize_zero : Normalize ⟨0, 0⟩ = ⟨0, 0⟩ := by
  rw [Normalize, if_pos Length_zero]

theorem Length_mk_x_nn (a : ℝ) (h : 0 ≤ a) : Length ⟨a, 0⟩ = a := by
  rw [Length_mk_x, abs_of_nonneg h]

theorem Length_mk_x_ne (a : ℝ) (h : 0 ≤ a) : Length ⟨-a, 0⟩ = a := by
  rw [Length_mk_x, abs_neg, abs_of_nonneg h]

theorem Normalize_neg_x (a : ℝ) (ha : 0 < a) : Normalize ⟨-a, 0⟩ = ⟨-1, 0⟩ := by
  unfold Normalize
  rw [Length_mk_x, abs_neg, abs_of_pos ha, if_neg (ne_of_gt ha)]
  simp [Vec2.mk.injEq, neg_div, div_self (ne_of_gt ha)]

theorem Normalize_pos_x (a : ℝ) (ha : 0 < a) : Normalize ⟨a, 0⟩ = ⟨1, 0⟩ := by
  unfold Normalize
  rw [Length_mk_x, abs_of_pos ha, if_neg (ne_of_gt ha)]
  simp [Vec2.mk.injEq, div_self (ne_of_gt ha)]

theorem sepAccum_eq_contribs (self : Agent) (radius : ℝ) (selfIdx : Nat) :
    ∀ (l : List Agent) (j : Nat) (s : Vec2) (c : Nat),
      sepAccum self radius selfIdx j l (s, c) =
        (Add s (vecSum (sepContribs self radius selfIdx j l)),
         c + (sepContribs self radius selfIdx j l).length) := by
  intro l
  induction l with
  | nil =>
    intro j s c
    rw [sepAccum, sepContribs]
    simp [vecSum, Add_zero_vec]
  | cons other rest ih =>
    intro j s c
    rw [sepAccum, sepContribs]
    simp only
    by_cases hj : j = selfIdx
    · rw [if_pos hj, if_pos hj]
      exact ih (j + 1) s c
    · rw [if_neg hj, if_neg hj]
      by_cases hcond : 0 < Length (Sub self.pos other.pos) ∧
          Length (Sub self.pos other.pos) < radius
      · rw [if_pos hcond, if_pos hcond, ih]
        have hv : vecSum
            (Scale (Normalize (Sub self.pos other.pos))
                ((radius - Length (Sub self.pos other.pos)) / radius) ::
              sepContribs self radius selfIdx (j + 1) rest) =
            Add (Scale (Normalize (Sub self.pos other.pos))
                ((radius - Length (Sub self.pos other.pos)) / radius))
              (vecSum (sepContribs self radius selfIdx (j + 1) rest)) := rfl
        rw [hv]
        simp only [Prod.mk.injEq, List.length_cons]
        exact ⟨Add_assoc_vec _ _ _, by omega⟩
      · rw [if_neg hcond, if_neg hcond]
        exact ih (j + 1) s c

/-- Claim C3 (amended): `Separation` accumulates, for every other agent at
distance strictly between 0 and `radius` of self (self excluded by identity,
modelled as index equality), a unit vector away from that neighbor weighted by
`(radius - distance)/radius`; a distinct peer at exactly self's position is
additionally suppressed by the `distance > 0` test and contributes nothing. -/
theorem separation_contributors :
    (∀ (agents : List Agent) (selfIdx : Nat) (radius strength : ℝ),
       Separation agents selfIdx radius strength =
         (let contribs := sepContribs (agents.getD selfIdx default) radius selfIdx 0 agents
          let steer := if contribs.length > 0 then
              Scale (vecSum contribs) (1 / (contribs.length : ℝ))
            else vecSum contribs
          if Length steer < 0.0001 then ⟨0, 0⟩ else Scale (Normalize steer) strength)) ∧
    (∀ (self other : Agent) (rad : ℝ) (si j : Nat) (rest : List Agent),
       other.pos = self.pos →
       sepContribs self rad si j (other :: rest) = sepContribs self rad si (j + 1) rest) := by
  constructor
  · intro agents selfIdx radius strength
    unfold Separation
    simp only
    rw [sepAccum_eq_contribs, Zero_add_vec, Nat.zero_add]
  · intro self other rad si j rest hp
    rw [sepContribs]
    simp only
    have hL : ¬ (0 < Length (Sub self.pos other.pos) ∧
        Length (Sub self.pos other.pos) < rad) := by
      rw [hp, Sub_self, Length_zero]
      intro hc
      exact lt_irrefl 0 hc.1
    rw [if_neg hL, ite_self]

theorem separation_contributors_witness :
    sepContribs ⟨⟨7, 7⟩, ⟨0, 0⟩, ⟨0, 0⟩, 2.4, 0.14, 0⟩ 48 0 5
        (⟨⟨7, 7⟩, ⟨1, 0⟩, ⟨0, 0⟩, 2.5, 0.14, 1⟩ :: []) =
      sepContribs ⟨⟨7, 7⟩, ⟨0, 0⟩, ⟨0, 0⟩, 2.4, 0.14, 0⟩ 48 0 6 [] :=
  separation_contributors.2 ⟨⟨7, 7⟩, ⟨0, 0⟩, ⟨0, 0⟩, 2.4, 0.14, 0⟩
    ⟨⟨7, 7⟩, ⟨1, 0⟩, ⟨0, 0⟩, 2.5, 0.14, 1⟩ 48 0 5 [] rfl

/-- Self of the separation counterexample, at index 0. -/
def sepX : Agent := ⟨⟨0, 0⟩, ⟨0, 0⟩, ⟨0, 0⟩, 2.4, 0.14, 0⟩

/-- A distinct peer (index 1) located at exactly self's position. -/
def sepY : Agent := ⟨⟨0, 0⟩, ⟨1, 0⟩, ⟨0, 0⟩, 2.5, 0.14, 1⟩

/-- A third agent near the edge of the separation radius, tuned so that the
extra contributing count claimed for the coincident peer flips the output. -/
def sepZ : Agent := ⟨⟨47.9928, 0⟩, ⟨0, 0⟩, ⟨0, 0⟩, 2.6, 0.14, 2⟩

/-- Claim C3 is false as stated: the coincident peer `sepY` contributes nothing
in the code (`d > 0` fails), so `Separation` returns `⟨-0.9, 0⟩`; under the
claimed semantics (`SeparationClaim`, exclusion by identity only) the peer is
counted, the averaged steer drops below the 0.0001 cutoff and the result is the
zero vector. -/
theorem separation_identity_cex :
    Separation [sepX, sepY, sepZ] 0 48 0.9 = ⟨-0.9, 0⟩ ∧
    SeparationClaim [sepX, sepY, sepZ] 0 48 0.9 = ⟨0, 0⟩ ∧
    Separation [sepX, sepY, sepZ] 0 48 0.9 ≠ SeparationClaim [sepX, sepY, sepZ] 0 48 0.9 := by
  have hsub1 : Sub sepX.pos sepY.pos = (⟨0, 0⟩ : Vec2) := by
    simp [sepX, sepY, Sub]
  have hsub2 : Sub sepX.pos sepZ.pos = (⟨-47.9928, 0⟩ : Vec2) := by
    simp only [sepX, sepZ, Sub, Vec2.mk.injEq]
    norm_num
  have hacc : sepAccum sepX 48 0 0 [sepX, sepY, sepZ] (⟨0, 0⟩, 0) = (⟨-0.00015, 0⟩, 1) := by
    rw [sepAccum, if_pos rfl, sepAccum, if_neg (by omega)]
    simp only
    rw [hsub1, Length_zero, if_neg (by norm_num), sepAccum, if_neg (by omega)]
    simp only
    rw [hsub2, Length_mk_x_ne _ (by norm_num), if_pos (by norm_num), sepAccum,
      Normalize_neg_x _ (by norm_num)]
    simp only [Scale, Add, Prod.mk.injEq, Vec2.mk.injEq]
    norm_num
  have hcode : Separation [sepX, sepY, sepZ] 0 48 0.9 = ⟨-0.9, 0⟩ := by
    unfold Separation
    simp only [List.getD_cons_zero]
    rw [hacc]
    norm_num [Scale, Length_mk_x_ne, Normalize_neg_x]
  have haccC : sepAccumClaim sepX 48 0 0 [sepX, sepY, sepZ] (⟨0, 0⟩, 0) =
      (⟨-0.00015, 0⟩, 2) := by
    rw [sepAccumClaim, if_pos rfl, sepAccumClaim, if_neg (by omega)]
    simp only
    rw [hsub1, Length_zero, if_pos (by norm_num), sepAccumClaim, if_neg (by omega)]
    simp only
    rw [hsub2, Length_mk_x_ne _ (by norm_num), if_pos (by norm_num), sepAccumClaim,
      Normalize_zero, Normalize_neg_x _ (by norm_num)]
    simp only [Scale, Add, Prod.mk.injEq, Vec2.mk.injEq]
    norm_num
  have hclaim : SeparationClaim [sepX, sepY, sepZ] 0 48 0.9 = ⟨0, 0⟩ := by
    unfold SeparationClaim
    simp only [List.getD_cons_zero]
    rw [haccC]
    norm_num [Scale, Length_mk_x_ne]
  refine ⟨hcode, hclaim, ?_⟩
  rw [hcode, hclaim]
  intro h
  have hx := congrArg Vec2.x h
  norm_num at hx

theorem Length_mk_y_nn (a : ℝ) (h : 0 ≤ a) : Length ⟨0, a⟩ = a := by
  rw [Length_mk_y, abs_of_nonneg h]

theorem Normalize_pos_y (a : ℝ) (ha : 0 < a) : Normalize ⟨0, a⟩ = ⟨0, 1⟩ := by
  unfold Normalize
  rw [Length_mk_y, abs_of_pos ha, if_neg (ne_of_gt ha)]
  simp [Vec2.mk.injEq, div_self (ne_of_gt ha)]

theorem Length_eq_of_sq (v : Vec2) (c : ℝ) (hc : 0 ≤ c)
    (h : v.x * v.x + v.y * v.y = c * c) : Length v = c := by
  unfold Length
  rw [h, Real.sqrt_mul_self_eq_abs, abs_of_nonneg hc]

theorem vecSum_cons (v : Vec2) (l : List Vec2) : vecSum (v :: l) = Add v (vecSum l) := rfl

theorem obsLoop_eq_contribs (pos ahead : Vec2) (s : ℝ) :
    ∀ (l : List (Vec2 × ℝ)) (steer : Vec2),
      obsLoop pos ahead s l steer = Add steer (vecSum (l.map (obsContrib pos ahead s))) := by
  intro l
  induction l with
  | nil =>
    intro steer
    rw [obsLoop]
    simp [vecSum, Add_zero_vec]
  | cons ob rest ih =>
    intro steer
    rw [obsLoop]
    simp only
    rw [List.map_cons, vecSum_cons]
    by_cases h1 : Length (Sub ahead ob.1) < ob.2 + 8
    · rw [if_pos h1, ih,
        show obsContrib pos ahead s ob =
          Scale (Normalize (Sub ahead ob.1)) ((ob.2 + 8 - Length (Sub ahead ob.1)) * s) from by
            rw [obsContrib]; simp only; rw [if_pos h1],
        Add_assoc_vec]
    · rw [if_neg h1]
      by_cases h2 : Length (Sub pos ob.1) < ob.2 + 8
      · rw [if_pos h2, ih,
          show obsContrib pos ahead s ob =
            Scale (Normalize (Sub pos ob.1)) ((ob.2 + 8 - Length (Sub pos ob.1)) * s * 0.8) from by
              rw [obsContrib]; simp only; rw [if_neg h1, if_pos h2],
          Add_assoc_vec]
      · rw [if_neg h2, ih,
          show obsContrib pos ahead s ob = (⟨0, 0⟩ : Vec2) from by
            rw [obsContrib]; simp only; rw [if_neg h1, if_neg h2],
          Zero_add_vec]

/-- Claim C4 (amended): `ObstacleAvoidance` sums one contribution per obstacle,
but the per-obstacle current-position test sits in the `else` branch of the
ahead-point test: when the ahead point is inside the buffered radius only the
ahead push is added (even if the current position is also inside); the
0.8-discounted current-position push appears only when the ahead point is
outside and the current position is inside. -/
theorem obstacle_current_check_in_else :
    (∀ (agent : Agent) (obstacles : List (Vec2 × ℝ)) (la s : ℝ),
       ObstacleAvoidance agent obstacles la s =
         (let h0 := Normalize agent.vel
          let heading := if Length h0 < 0.01 then (⟨0, -1⟩ : Vec2) else h0
          let ahead := Add agent.pos (Scale heading la)
          let steer := vecSum (obstacles.map (obsContrib agent.pos ahead s))
          if Length steer < 0.001 then ⟨0, 0⟩ else Limit steer s)) ∧
    (∀ (pos ahead : Vec2) (s : ℝ) (ob : Vec2 × ℝ),
       Length (Sub ahead ob.1) < ob.2 + 8 →
       obsContrib pos ahead s ob =
         Scale (Normalize (Sub ahead ob.1)) ((ob.2 + 8 - Length (Sub ahead ob.1)) * s)) ∧
    (∀ (pos ahead : Vec2) (s : ℝ) (ob : Vec2 × ℝ),
       ¬ Length (Sub ahead ob.1) < ob.2 + 8 → Length (Sub pos ob.1) < ob.2 + 8 →
       obsContrib pos ahead s ob =
         Scale (Normalize (Sub pos ob.1)) ((ob.2 + 8 - Length (Sub pos ob.1)) * s * 0.8)) ∧
    (∀ (pos ahead : Vec2) (s : ℝ) (ob : Vec2 × ℝ),
       ¬ Length (Sub ahead ob.1) < ob.2 + 8 → ¬ Length (Sub pos ob.1) < ob.2 + 8 →
       obsContrib pos ahead s ob = ⟨0, 0⟩) := by
  refine ⟨?_, ?_, ?_, ?_⟩
  · intro agent obstacles la s
    unfold ObstacleAvoidance
    simp only
    rw [obsLoop_eq_contribs, Zero_add_vec]
  · intro pos ahead s ob h1
    rw [obsContrib]
    simp only
    rw [if_pos h1]
  · intro pos ahead s ob h1 h2
    rw [obsContrib]
    simp only
    rw [if_neg h1, if_pos h2]
  · intro pos ahead s ob h1 h2
    rw [obsContrib]
    simp only
    rw [if_neg h1, if_neg h2]

theorem obstacle_current_check_in_else_witness :
    obsContrib ⟨0, 3⟩ ⟨4, 3⟩ 1 (⟨0, 0⟩, 12) =
      Scale (Normalize (Sub ⟨4, 3⟩ (⟨0, 0⟩ : Vec2)))
        ((12 + 8 - Length (Sub ⟨4, 3⟩ (⟨0, 0⟩ : Vec2))) * 1) :=
  obstacle_current_check_in_else.2.1 ⟨0, 3⟩ ⟨4, 3⟩ 1 (⟨0, 0⟩, 12)
    (by
      rw [show Sub ⟨4, 3⟩ (⟨0, 0⟩ : Vec2) = ⟨4, 3⟩ from by simp [Sub],
        Length_eq_of_sq ⟨4, 3⟩ 5 (by norm_num) (by norm_num)]
      norm_num)

theorem tickAux_length (cfg : Config) :
    ∀ (n : Nat) (agents : List Agent) (i : Nat),
      (tickAux cfg n agents i).length = agents.length := by
  intro n
  induction n with
  | zero => intro agents i; rfl
  | succ m ih =>
    intro agents i
    rw [tickAux, ih, List.length_set]

theorem tickAux_add (cfg : Config) (m : Nat) :
    ∀ (n : Nat) (agents : List Agent) (i : Nat),
      tickAux cfg (m + n) agents i = tickAux cfg n (tickAux cfg m agents i) (i + m) := by
  induction m with
  | zero =>
    intro n agents i
    rw [Nat.zero_add, tickAux, Nat.add_zero]
  | succ k ih =>
    intro n agents i
    rw [show k + 1 + n = (k + n) + 1 from by omega, tickAux, ih, tickAux]
    rw [show i + 1 + k = i + (k + 1) from by omega]

/-- Entries outside the window `[i, i + n)` are untouched by the loop. -/
theorem tickAux_get_out (cfg : Config) :
    ∀ (n : Nat) (agents : List Agent) (i j : Nat), (j < i ∨ i + n ≤ j) →
      (tickAux cfg n agents i).get? j = agents.get? j := by
  intro n
  induction n with
  | zero => intro agents i j _; rfl
  | succ m ih =>
    intro agents i j hj
    rw [tickAux, ih _ _ _ (by omega)]
    exact List.get?_set_ne _ _ (by omega)

/-- Configuration of the concrete two-agent tick: separation only, priority
combining, with the program's tunables. -/
def cfgC2 : Config :=
  { enablePath := false, enableSep := true, enablePredict := false, enableObs := false,
    enableWall := false, usePriority := true, separationRadius := 48,
    separationStrength := 0.9, predictiveLookAhead := 0.9, predictiveStrength := 0.9,
    obstacleLookAhead := 70, obstacleStrength := 1.2, wallMargin := 40, wallStrength := 1.6,
    pathWaypointRadius := 22, screenW := 1800, screenH := 1000, path := [], obstacles := [] }

/-- First agent of the concrete tick, at the origin. -/
def agA : Agent := ⟨⟨0, 0⟩, ⟨0, 0⟩, ⟨0, 0⟩, 2.4, 0.14, 0⟩

/-- Second agent, just inside the first agent's separation radius. -/
def agB : Agent := ⟨⟨47.9, 0⟩, ⟨0, 0⟩, ⟨0, 0⟩, 2.4, 0.14, 0⟩

/-- `agA` after its update: pushed away from `agB` by the clamped force. -/
def agA2 : Agent := ⟨⟨-0.14, 0⟩, ⟨-0.14, 0⟩, ⟨0, 0⟩, 2.4, 0.14, 0⟩

/-- `agB` as the start-of-tick snapshot semantics would update it: still pushed,
because it reads `agA`'s original position. -/
def agBm : Agent := ⟨⟨48.04, 0⟩, ⟨0.14, 0⟩, ⟨0, 0⟩, 2.4, 0.14, 0⟩

theorem sepEvalA : Separation [agA, agB] 0 48 (9 / 10) = ⟨-(9 / 10), 0⟩ := by
  have hsub : Sub agA.pos agB.pos = (⟨-47.9, 0⟩ : Vec2) := by
    simp only [agA, agB, Sub, Vec2.mk.injEq]
    norm_num
  have hacc : sepAccum agA 48 0 0 [agA, agB] (⟨0, 0⟩, 0) = (⟨-(1 / 480), 0⟩, 1) := by
    rw [sepAccum, if_pos rfl, sepAccum, if_neg (by omega)]
    simp only
    rw [hsub, Length_mk_x_ne _ (by norm_num), if_pos (by norm_num), sepAccum,
      Normalize_neg_x _ (by norm_num)]
    simp only [Scale, Add, Prod.mk.injEq, Vec2.mk.injEq]
    norm_num
  unfold Separation
  simp only [List.getD_cons_zero]
  rw [hacc]
  norm_num [Scale, Length_mk_x_ne, Normalize_neg_x]

theorem sepEvalB2 : Separation [agA2, agB] 1 48 (9 / 10) = ⟨0, 0⟩ := by
  have hsub : Sub agB.pos agA2.pos = (⟨48.04, 0⟩ : Vec2) := by
    simp only [agB, agA2, Sub, Vec2.mk.injEq]
    norm_num
  have hacc : sepAccum agB 48 1 0 [agA2, agB] (⟨0, 0⟩, 0) = (⟨0, 0⟩, 0) := by
    rw [sepAccum, if_neg (by omega)]
    simp only
    rw [hsub, Length_mk_x_nn _ (by norm_num), if_neg (by norm_num), sepAccum, if_pos rfl,
      sepAccum]
  unfold Separation
  simp only [List.getD_cons_succ, List.getD_cons_zero]
  rw [hacc]
  norm_num [Length_zero]

theorem sepEvalB : Separation [agA, agB] 1 48 (9 / 10) = ⟨9 / 10, 0⟩ := by
  have hsub : Sub agB.pos agA.pos = (⟨47.9, 0⟩ : Vec2) := by
    simp only [agB, agA, Sub, Vec2.mk.injEq]
    norm_num
  have hacc : sepAccum agB 48 1 0 [agA, agB] (⟨0, 0⟩, 0) = (⟨1 / 480, 0⟩, 1) := by
    rw [sepAccum, if_neg (by omega)]
    simp only
    rw [hsub, Length_mk_x_nn _ (by norm_num), if_pos (by norm_num), sepAccum, if_pos rfl,
      sepAccum, Normalize_pos_x _ (by norm_num)]
    simp only [Scale, Add, Prod.mk.injEq, Vec2.mk.injEq]
    norm_num
  unfold Separation
  simp only [List.getD_cons_succ, List.getD_cons_zero]
  rw [hacc]
  norm_num [Scale, Length_mk_x_nn, Normalize_pos_x]

theorem stepEvalA : stepAgent cfgC2 [agA, agB] 0 = agA2 := by
  norm_num [stepAgent, newVel, appliedSteer, composedSteer, pathResult, cfgC2,
    PrioritySteering, Limit, wrapPos, Add, Scale, Sub, List.getD_cons_zero, sepEvalA,
    Length_zero, Length_mk_x_ne, Length_mk_x_nn, Normalize_neg_x, agA2,
    show agA.pos = (⟨0, 0⟩ : Vec2) from rfl, show agA.vel = (⟨0, 0⟩ : Vec2) from rfl,
    show agA.maxSpeed = 2.4 from rfl, show agA.maxForce = 0.14 from rfl,
    show agA.pathIndex = 0 from rfl, Agent.mk.injEq, Vec2.mk.injEq]

theorem stepEvalB2 : stepAgent cfgC2 [agA2, agB] 1 = agB := by
  have h1 : stepAgent cfgC2 [agA2, agB] 1 =
      ⟨⟨47.9, 0⟩, ⟨0, 0⟩, ⟨0, 0⟩, 2.4, 0.14, 0⟩ := by
    norm_num [stepAgent, newVel, appliedSteer, composedSteer, pathResult, cfgC2,
      PrioritySteering, Limit, wrapPos, Add, Scale, Sub, List.getD_cons_succ,
      List.getD_cons_zero, sepEvalB2, Length_zero,
      show agB.pos = (⟨47.9, 0⟩ : Vec2) from rfl, show agB.vel = (⟨0, 0⟩ : Vec2) from rfl,
      show agB.maxSpeed = 2.4 from rfl, show agB.maxForce = 0.14 from rfl,
      show agB.pathIndex = 0 from rfl, Agent.mk.injEq, Vec2.mk.injEq]
  rw [h1]
  norm_num [agB, Agent.mk.injEq, Vec2.mk.injEq]

theorem stepEvalB : stepAgent cfgC2 [agA, agB] 1 = agBm := by
  norm_num [stepAgent, newVel, appliedSteer, composedSteer, pathResult, cfgC2,
    PrioritySteering, Limit, wrapPos, Add, Scale, Sub, List.getD_cons_succ,
    List.getD_cons_zero, sepEvalB, Length_zero, Length_mk_x_nn, Normalize_pos_x, agBm,
    show agB.pos = (⟨47.9, 0⟩ : Vec2) from rfl, show agB.vel = (⟨0, 0⟩ : Vec2) from rfl,
    show agB.maxSpeed = 2.4 from rfl, show agB.maxForce = 0.14 from rfl,
    show agB.pathIndex = 0 from rfl, Agent.mk.injEq, Vec2.mk.injEq]

/-- Claim C2: within one multi-agent tick, agents are processed sequentially in
index order and written back into the list immediately: the entry produced for
agent `i` is `stepAgent` applied to the list in which agents `0..i-1` hold their
already-updated states while agents `i..` still hold their start-of-tick states;
and this differs observably from start-of-tick-snapshot semantics
(`tickSnapshot`) on a concrete two-agent configuration. -/
theorem sequential_tick_semantics :
    (∀ (cfg : Config) (agents : List Agent) (i : Nat), i < agents.length →
       (tick cfg agents).get? i = some (stepAgent cfg (prefixTick cfg agents i) i) ∧
       ∀ j : Nat, i ≤ j → (prefixTick cfg agents i).get? j = agents.get? j) ∧
    tick cfgC2 [agA, agB] ≠ tickSnapshot cfgC2 [agA, agB] := by
  constructor
  · intro cfg agents i hi
    constructor
    · unfold tick prefixTick
      rw [show agents.length = i + ((agents.length - i - 1) + 1) from by omega, tickAux_add,
        tickAux, Nat.zero_add,
        tickAux_get_out cfg (agents.length - i - 1)
          ((tickAux cfg i agents 0).set i (stepAgent cfg (tickAux cfg i agents 0) i))
          (i + 1) i (Or.inl (Nat.lt_succ_self i))]
      exact List.get?_set_eq_of_lt _ (by rw [tickAux_length]; exact hi)
    · intro j hj
      unfold prefixTick
      exact tickAux_get_out cfg i agents 0 j (Or.inr (by omega))
  · have htick : tick cfgC2 [agA, agB] = [agA2, agB] := by
      show tickAux cfgC2 (0 + 1 + 1) [agA, agB] 0 = [agA2, agB]
      rw [tickAux, stepEvalA,
        show ([agA, agB] : List Agent).set 0 agA2 = [agA2, agB] from rfl, tickAux,
        show (0 : ℕ) + 1 = 1 from rfl, stepEvalB2,
        show ([agA2, agB] : List Agent).set 1 agB = [agA2, agB] from rfl, tickAux]
    have hsnap : tickSnapshot cfgC2 [agA, agB] = [agA2, agBm] := by
      unfold tickSnapshot
      rw [show ([agA, agB] : List Agent).length = 2 from rfl,
        show List.range 2 = [0, 1] from rfl, List.map_cons, List.map_cons, List.map_nil,
        stepEvalA, stepEvalB]
    rw [htick, hsnap]
    intro h
    have hx := congrArg (fun l : List Agent => (l.getD 1 default).pos.x) h
    simp only [List.getD_cons_succ, List.getD_cons_zero, agB, agBm] at hx
    norm_num at hx

theorem sequential_tick_semantics_witness :
    (tick cfgC2 [agA, agB]).get? 0 =
      some (stepAgent cfgC2 (prefixTick cfgC2 [agA, agB] 0) 0) :=
  (sequential_tick_semantics.1 cfgC2 [agA, agB] 0 (by simp)).1

/-- Agent of the obstacle-avoidance counterexample: currently inside the
buffered obstacle, heading so that the ahead point is also inside. -/
def agOb : Agent := ⟨⟨0, 3⟩, ⟨1, 0⟩, ⟨0, 0⟩, 2.4, 0.14, 0⟩

/-- Claim C4 is false as stated: with `agOb` both the ahead point `(4,3)` and
the current position `(0,3)` lie inside the buffered radius 20 of the obstacle
at the origin; the code adds only the ahead push (result `(0.8, 0.6)` after the
clamp), while the claimed independent current-position check
(`ObstacleAvoidanceClaim`) adds a second push and yields a differently-directed
force. -/
theorem obstacle_independent_cex :
    ObstacleAvoidance agOb [(⟨0, 0⟩, 12)] 4 1 = ⟨0.8, 0.6⟩ ∧
    ObstacleAvoidanceClaim agOb [(⟨0, 0⟩, 12)] 4 1 ≠ ⟨0.8, 0.6⟩ ∧
    ObstacleAvoidance agOb [(⟨0, 0⟩, 12)] 4 1 ≠ ObstacleAvoidanceClaim agOb [(⟨0, 0⟩, 12)] 4 1 := by
  have hn1 : Normalize (⟨1, 0⟩ : Vec2) = ⟨1, 0⟩ := Normalize_pos_x 1 (by norm_num)
  have hL1 : Length (⟨1, 0⟩ : Vec2) = 1 := Length_mk_x_nn 1 (by norm_num)
  have hL43 : Length (⟨4, 3⟩ : Vec2) = 5 := Length_eq_of_sq _ 5 (by norm_num) (by norm_num)
  have hn43 : Normalize (⟨4, 3⟩ : Vec2) = ⟨0.8, 0.6⟩ := by
    unfold Normalize
    rw [hL43, if_neg (by norm_num)]
    norm_num [Vec2.mk.injEq]
  have hL03 : Length (⟨0, 3⟩ : Vec2) = 3 := Length_mk_y_nn 3 (by norm_num)
  have hn03 : Normalize (⟨0, 3⟩ : Vec2) = ⟨0, 1⟩ := Normalize_pos_y 3 (by norm_num)
  have hL129 : Length (⟨12, 9⟩ : Vec2) = 15 := Length_eq_of_sq _ 15 (by norm_num) (by norm_num)
  have hcode : ObstacleAvoidance agOb [(⟨0, 0⟩, 12)] 4 1 = ⟨0.8, 0.6⟩ := by
    norm_num [ObstacleAvoidance, obsLoop, agOb, Sub, Add, Scale, Limit,
      hn1, hL1, hL43, hn43, hL129, Vec2.mk.injEq]
  have hloop : obsLoopClaim ⟨0, 3⟩ ⟨4, 3⟩ 1 [(⟨0, 0⟩, 12)] ⟨0, 0⟩ = ⟨12, 22.6⟩ := by
    norm_num [obsLoopClaim, Sub, Add, Scale, hL43, hn43, hL03, hn03, Vec2.mk.injEq]
  have hLL : Length (⟨12, 22.6⟩ : Vec2) * Length (⟨12, 22.6⟩ : Vec2) = 654.76 := by
    unfold Length
    rw [Real.mul_self_sqrt (by norm_num)]
    norm_num
  have hL0 : 0 ≤ Length (⟨12, 22.6⟩ : Vec2) := Length_nonneg _
  have hgt : Length (⟨12, 22.6⟩ : Vec2) > 1 := by nlinarith
  have hlim : Limit ⟨12, 22.6⟩ 1 = Scale ⟨12, 22.6⟩ (1 / Length ⟨12, 22.6⟩) := by
    unfold Limit
    rw [if_pos hgt]
  have hmain : ObstacleAvoidanceClaim agOb [(⟨0, 0⟩, 12)] 4 1 =
      (if Length (⟨12, 22.6⟩ : Vec2) < 0.001 then (⟨0, 0⟩ : Vec2) else Limit ⟨12, 22.6⟩ 1) := by
    norm_num [ObstacleAvoidanceClaim, agOb, Add, Scale, hn1, hL1, hloop, Vec2.mk.injEq]
  have hclaim : ObstacleAvoidanceClaim agOb [(⟨0, 0⟩, 12)] 4 1 =
      Scale ⟨12, 22.6⟩ (1 / Length ⟨12, 22.6⟩) := by
    rw [hmain, if_neg (show ¬ Length (⟨12, 22.6⟩ : Vec2) < 0.001 by nlinarith), hlim]
  have hne : ObstacleAvoidanceClaim agOb [(⟨0, 0⟩, 12)] 4 1 ≠ ⟨0.8, 0.6⟩ := by
    rw [hclaim]
    intro h
    have hne0 : Length (⟨12, 22.6⟩ : Vec2) ≠ 0 := by
      intro h0
      rw [h0] at hLL
      norm_num at hLL
    have hx := congrArg Vec2.x h
    simp [Scale] at hx
    have hL15 : Length (⟨12, 22.6⟩ : Vec2) = 15 := by
      field_simp at hx
      linarith
    rw [hL15] at hLL
    norm_num at hLL
  exact ⟨hcode, hne, by rw [hcode]; exact fun h => hne h.symm⟩

theorem pathfollow_wrap_witness :
    PathFollowing ⟨⟨0, 0⟩, ⟨0, 0⟩, ⟨0, 0⟩, 3, 0.12, 0⟩ [⟨0, 0⟩, ⟨100, 0⟩] 7 10 =
      PathFollowing ⟨⟨0, 0⟩, ⟨0, 0⟩, ⟨0, 0⟩, 3, 0.12, 0⟩ [⟨0, 0⟩, ⟨100, 0⟩] 0 10 :=
  (pathfollow_wrap ⟨⟨0, 0⟩, ⟨0, 0⟩, ⟨0, 0⟩, 3, 0.12, 0⟩ [⟨0, 0⟩, ⟨100, 0⟩] 7 10
    (by simp)).1 (by norm_num)

end

end SteerSim
